import Mathlib

/-!
Verification of the goose-flow orchestration core.

This file gives a shallow embedding, in Lean, of the orchestration engine of
the goose-flow repository: the task data model, the SafetyManager validation
gate (src/lib/safety-manager), the directive parser of OrchestrationHandler
(src/lib/orchestration-handler.ts together with the regex patterns of
src/lib/constants.ts), the ProgressTracker ledger (src/lib/progress-tracker.ts)
and the state-mutating operations of TaskOrchestrator
(src/lib/task-orchestrator.ts).  TypeScript Maps are modelled as association
lists in insertion order, JS numbers used for progress values as rationals,
thrown exceptions as Except values, and the wall clock as an explicit
parameter.  The theorems at the end of the file settle the frozen claims
about this code.
-/

namespace GooseFlow

/-- Task status values, from the Task type in src/types (status is one of
pending, running, paused, completed, failed). -/
inductive TaskStatus
  | pending
  | running
  | paused
  | completed
  | failed
deriving DecidableEq, Repr

/-- The Task record of src/types as used by TaskOrchestrator.createTask:
id, mode, instruction, status, depth, parentId, rootId, children, result,
isPaused, pausedMode plus the data payload (tools, maxTurns).  Timestamps
(createdAt/updatedAt) carry no information used by any claim and are omitted;
ids are modelled as the numeric counter value from which the code builds the
string id. -/
structure Task where
  id : Nat
  mode : String
  instruction : String
  status : TaskStatus
  depth : Nat
  parentId : Option Nat
  rootId : Option Nat
  children : List Nat
  result : Option String
  isPaused : Bool
  pausedMode : Option String
  tools : Option (List String)
  maxTurns : Option Int
deriving DecidableEq, Repr

/-- A JS Map with natural-number keys, modelled as an association list in
insertion order. -/
abbrev JsMap (α : Type) := List (Nat × α)

/-- Map.get: the first entry with the given key, if any. -/
def alookup {α : Type} (m : JsMap α) (id : Nat) : Option α :=
  (List.find? (fun e => e.1 = id) m).map (fun e => e.2)

/-- Map.set: replace the entry when the key is present (keeping insertion
order, as JS Maps do), otherwise append. -/
def aset {α : Type} (m : JsMap α) (id : Nat) (v : α) : JsMap α :=
  if List.any m (fun e => e.1 = id)
  then List.map (fun e => if e.1 = id then (id, v) else e) m
  else m ++ [(id, v)]

/-- The orchestrator's task map (a JS Map from id to Task). -/
abbrev TaskMap := JsMap Task

/-- Map.get on the task map. -/
def lookupTask (m : TaskMap) (id : Nat) : Option Task := alookup m id

/-- Map.set on the task map. -/
def mapSet (m : TaskMap) (id : Nat) (t : Task) : TaskMap := aset m id t

/-- Map.size.  With distinct keys (the orchestrator only ever inserts fresh
ids) the length of the association list is the size of the Map. -/
def mapSize (m : TaskMap) : Nat := List.length m

/-- The TaskLimits configuration of SafetyManager. -/
structure TaskLimits where
  maxDepth : Nat
  maxChildren : Nat
  maxTotalTasks : Nat
  maxDuration : Nat
deriving DecidableEq, Repr

/-- The distinct errors thrown by SafetyManager.validateTaskCreation, in the
order its checks appear in the source. -/
inductive SafetyError
  | totalExceeded
  | durationExceeded
  | depthExceeded
  | childrenExceeded
  | loopDetected
deriving DecidableEq, Repr

/-- The number of existing children of the parent that are present in the
task map and share the candidate mode — the recentSiblings count computed by
SafetyManager.validateTaskCreation. -/
def siblingCount (allTasks : TaskMap) (parentTask : Task) (newTaskMode : String) : Nat :=
  List.length (List.filter (fun t => t.mode = newTaskMode)
    (List.filterMap (lookupTask allTasks) parentTask.children))

/-- SafetyManager.validateTaskCreation.  The session duration
(Date.now() - sessionStartTime) is passed explicitly.  The checks run in
source order: total task count, session duration, then — only when a parent
is given — depth, children count and the identical-mode sibling heuristic. -/
def validateTaskCreation (limits : TaskLimits) (sessionDuration : Nat)
    (parentTask : Option Task) (newTaskMode : String) (allTasks : TaskMap) :
    Except SafetyError Bool :=
  if mapSize allTasks + 1 > limits.maxTotalTasks then
    .error .totalExceeded
  else if sessionDuration > limits.maxDuration then
    .error .durationExceeded
  else
    match parentTask with
    | none => .ok true
    | some p =>
      if p.depth ≥ limits.maxDepth then
        .error .depthExceeded
      else if List.length p.children ≥ limits.maxChildren then
        .error .childrenExceeded
      else if siblingCount allTasks p newTaskMode ≥ 3 then
        .error .loopDetected
      else
        .ok true

/-! ProgressTracker (src/lib/progress-tracker.ts).  The in-memory Map from
agent id to ProgressEntry is modelled as an association list; JS numbers for
progress values become rationals; Date values become natural-number stamps
supplied by the caller.  JS truthiness drives the field-merging of
updateProgress: undefined and the empty string and the number 0 are falsy. -/

/-- The ProgressEntry record: agentId, agentName, status, progress,
currentTask, lastUpdate. -/
structure ProgressEntry where
  agentId : Nat
  agentName : String
  status : String
  progress : ℚ
  currentTask : Option String
  lastUpdate : Nat
deriving DecidableEq, Repr

/-- A Partial ProgressEntry argument to updateProgress: every field may be
absent (undefined). -/
structure ProgressUpdate where
  agentName : Option String := none
  status : Option String := none
  progress : Option ℚ := none
  currentTask : Option String := none
deriving DecidableEq, Repr

/-- The progress Map, keyed by agent id, in insertion order. -/
abbrev ProgressMap := JsMap ProgressEntry

/-- Map.get on the progress map. -/
def lookupProgress (m : ProgressMap) (id : Nat) : Option ProgressEntry :=
  alookup m id

/-- Map.set on the progress map. -/
def progSet (m : ProgressMap) (id : Nat) (p : ProgressEntry) : ProgressMap :=
  aset m id p

/-- JS a || b on string-or-undefined values: a when a is truthy (defined and
nonempty), otherwise b. -/
def orStr (a b : Option String) : Option String :=
  match a with
  | some s => if s = "" then b else some s
  | none => b

/-- JS a || b on number-or-undefined values: a when a is truthy (defined and
nonzero), otherwise b. -/
def orNum (a b : Option ℚ) : Option ℚ :=
  match a with
  | some q => if q = 0 then b else some q
  | none => b

/-- ProgressTracker.updateProgress: build the updated record field by field
with the JS || chains of the source (entry value, else existing value, else
default), always stamping lastUpdate with the current time, and Map.set it. -/
def updateProgress (m : ProgressMap) (now : Nat) (agentId : Nat)
    (entry : ProgressUpdate) : ProgressMap :=
  let existing := lookupProgress m agentId
  let updated : ProgressEntry :=
    { agentId := agentId
      agentName := (orStr entry.agentName
        (orStr (Option.map (fun e => e.agentName) existing) (some "unknown"))).getD "unknown"
      status := (orStr entry.status
        (orStr (Option.map (fun e => e.status) existing) (some "unknown"))).getD "unknown"
      progress := (orNum entry.progress
        (Option.map (fun e => e.progress) existing)).getD 0
      currentTask := orStr entry.currentTask
        (Option.bind existing (fun e => e.currentTask))
      lastUpdate := now }
  progSet m agentId updated

/-- ProgressTracker.getOverallProgress: 0 on an empty map, otherwise the
reduce-sum of the progress values divided by the number of entries. -/
def getOverallProgress (m : ProgressMap) : ℚ :=
  let entries := List.map (fun e => e.2) m
  if List.length entries = 0 then 0
  else (List.foldl (fun sum e => sum + e.progress) 0 entries) / (List.length entries : ℚ)

/-! OrchestrationHandler.parseOutput (src/lib/orchestration-handler.ts) and
the TOOL_PATTERNS regexes of src/lib/constants.ts.  Each of the four global
regexes is embedded as a matcher that attempts the pattern at the head of a
character list and returns the captured groups and the remainder after the
match; a scanner then replays the JS exec loop: repeatedly find the leftmost
match at or after the current position and continue after its end.  The four
patterns contain no productive backtracking (their character classes exclude
the character that the following literal starts with), so a greedy
deterministic matcher is exact. -/

/-- The opening curly brace character. -/
def obrace : Char := Char.ofNat 123

/-- The closing curly brace character. -/
def cbrace : Char := Char.ofNat 125

/-- The single-quote character. -/
def squote : Char := Char.ofNat 39

/-- Case-insensitive literal match (the i regex flag): consume the keyword
and return the rest, or fail. -/
def matchCI : List Char → List Char → Option (List Char)
  | [], s => some s
  | _ :: _, [] => none
  | k :: ks, c :: cs => if k.toLower = c.toLower then matchCI ks cs else none

/-- Greedy whitespace skip, the deterministic reading of a regex star of
whitespace followed by a non-whitespace literal. -/
def dropWS : List Char → List Char
  | [] => []
  | c :: cs => if c.isWhitespace then dropWS cs else c :: cs

/-- Split at the first occurrence of the stop character: the characters
before it and the characters after it, or failure when it is absent.  This is
the deterministic reading of a greedy complemented character class followed
by the stop character as a literal. -/
def splitAtChar (stop : Char) : List Char → Option (List Char × List Char)
  | [] => none
  | c :: cs =>
    if c = stop then some ([], cs)
    else
      match splitAtChar stop cs with
      | some p => some (c :: p.1, p.2)
      | none => none

/-- The maximal run of characters different from the stop character, and the
rest (starting with the stop character, or empty). -/
def takeNonStop (stop : Char) : List Char → List Char × List Char
  | [] => ([], [])
  | c :: cs =>
    if c = stop then ([], c :: cs)
    else
      let r := takeNonStop stop cs
      (c :: r.1, r.2)

/-- Matcher for the inline tool patterns NEW_TASK and ATTEMPT_COMPLETION of
TOOL_PATTERNS: the keyword (case-insensitive), optional whitespace, an
opening brace, a nonempty capture of non-brace characters, and a closing
brace.  Returns the capture and the remainder after the match. -/
def matchInlineAt (keyword : List Char) (s : List Char) : Option (List Char × List Char) :=
  match matchCI keyword s with
  | none => none
  | some r1 =>
    match dropWS r1 with
    | [] => none
    | c :: r3 =>
      if c = obrace then
        match splitAtChar cbrace r3 with
        | some p => if p.1 = [] then none else some p
        | none => none
      else none

/-- Matcher for an optional XML group of the form whitespace, an opening tag,
a nonempty capture of characters other than the angle bracket, and a closing
tag.  On failure nothing is consumed and no capture is produced, matching the
regex treatment of an optional non-capturing group. -/
def matchTagGroup (openTag closeTag : List Char) (s : List Char) :
    Option (List Char) × List Char :=
  match matchCI openTag (dropWS s) with
  | none => (none, s)
  | some r1 =>
    let pr := takeNonStop '<' r1
    if pr.1 = [] then (none, s)
    else
      match matchCI closeTag pr.2 with
      | none => (none, s)
      | some r2 => (some pr.1, r2)

/-- The captures of the XML_NEW_TASK pattern: mode, instruction, optional
tools, optional maxTurns. -/
structure XmlNewTaskMatch where
  mode : List Char
  instruction : List Char
  tools : Option (List Char)
  maxTurns : Option (List Char)
deriving DecidableEq, Repr

/-- Matcher for TOOL_PATTERNS.XML_NEW_TASK: the new_task element containing a
mode element, an instruction element, then optional tools and maxTurns
elements, with optional whitespace between the parts, all tags matched
case-insensitively. -/
def matchXmlNewTaskAt (s : List Char) : Option (XmlNewTaskMatch × List Char) :=
  match matchCI "<new_task>".toList s with
  | none => none
  | some r1 =>
    match matchCI "<mode>".toList (dropWS r1) with
    | none => none
    | some r2 =>
      let pm := takeNonStop '<' r2
      if pm.1 = [] then none
      else
        match matchCI "</mode>".toList pm.2 with
        | none => none
        | some r3 =>
          match matchCI "<instruction>".toList (dropWS r3) with
          | none => none
          | some r4 =>
            let pi := takeNonStop '<' r4
            if pi.1 = [] then none
            else
              match matchCI "</instruction>".toList pi.2 with
              | none => none
              | some r5 =>
                let tg := matchTagGroup "<tools>".toList "</tools>".toList r5
                let mg := matchTagGroup "<maxTurns>".toList "</maxTurns>".toList tg.2
                match matchCI "</new_task>".toList (dropWS mg.2) with
                | none => none
                | some r6 =>
                  some ({ mode := pm.1, instruction := pi.1,
                          tools := tg.1, maxTurns := mg.1 }, r6)

/-- The captures of the XML_COMPLETION pattern: result and optional
summary. -/
structure XmlCompletionMatch where
  result : List Char
  summary : Option (List Char)
deriving DecidableEq, Repr

/-- Matcher for TOOL_PATTERNS.XML_COMPLETION: the attempt_completion element
containing a result element and an optional summary element. -/
def matchXmlCompletionAt (s : List Char) : Option (XmlCompletionMatch × List Char) :=
  match matchCI "<attempt_completion>".toList s with
  | none => none
  | some r1 =>
    match matchCI "<result>".toList (dropWS r1) with
    | none => none
    | some r2 =>
      let pr := takeNonStop '<' r2
      if pr.1 = [] then none
      else
        match matchCI "</result>".toList pr.2 with
        | none => none
        | some r3 =>
          let sg := matchTagGroup "<summary>".toList "</summary>".toList r3
          match matchCI "</attempt_completion>".toList (dropWS sg.2) with
          | none => none
          | some r4 => some ({ result := pr.1, summary := sg.1 }, r4)

/-- One step bound of fuel per character keeps the scanners structurally
recursive; the guard on the match remainder makes the recursion manifestly
well-founded and is never false for the four matchers above (their matches
always consume at least one character). -/
def scanFuel {α : Type} (f : List Char → Option (α × List Char)) :
    Nat → List Char → List α
  | 0, _ => []
  | _ + 1, [] => []
  | fuel + 1, c :: rest =>
    match f (c :: rest) with
    | some p =>
      if p.2.length < rest.length + 1
      then p.1 :: scanFuel f fuel p.2
      else p.1 :: scanFuel f fuel rest
    | none => scanFuel f fuel rest

/-- The exec loop of a global regex: all matches from left to right, each
search resuming after the end of the previous match. -/
def scanAll {α : Type} (f : List Char → Option (α × List Char)) (s : List Char) : List α :=
  scanFuel f s.length s

/-- The scan instrumented with the start position of every match, used to
state encounter order. -/
def scanPosFuel {α : Type} (f : List Char → Option (α × List Char)) :
    Nat → Nat → List Char → List (Nat × α)
  | 0, _, _ => []
  | _ + 1, _, [] => []
  | fuel + 1, pos, c :: rest =>
    match f (c :: rest) with
    | some p =>
      if p.2.length < rest.length + 1
      then (pos, p.1) :: scanPosFuel f fuel (pos + (rest.length + 1 - p.2.length)) p.2
      else (pos, p.1) :: scanPosFuel f fuel (pos + 1) rest
    | none => scanPosFuel f fuel (pos + 1) rest

/-- The position-instrumented exec loop started at position 0. -/
def scanAllPos {α : Type} (f : List Char → Option (α × List Char)) (s : List Char) :
    List (Nat × α) :=
  scanPosFuel f s.length 0 s

/-- String.split on commas: the list of comma-free segments, with empty
segments kept, as in JS. -/
def splitComma : List Char → List (List Char)
  | [] => [[]]
  | c :: cs =>
    match splitComma cs with
    | [] => [[]]
    | h :: t => if c = ',' then [] :: h :: t else (c :: h) :: t

/-- String.prototype.trim: whitespace removed from both ends. -/
def trimChars (s : List Char) : List Char :=
  List.reverse (List.dropWhile Char.isWhitespace
    (List.reverse (List.dropWhile Char.isWhitespace s)))

/-- A double or single quote. -/
def isQuoteChar (c : Char) : Bool := c = '"' ∨ c = squote

/-- The replace of parseToolParameters that removes one leading and one
trailing quote when present (the anchored alternatives of its regex, applied
globally). -/
def stripQuotes (s : List Char) : List Char :=
  let s1 := match s with
    | [] => ([] : List Char)
    | c :: cs => if isQuoteChar c then cs else c :: cs
  match List.reverse s1 with
  | [] => s1
  | c :: cs => if isQuoteChar c then List.reverse cs else s1

/-- OrchestrationHandler.parseToolParameters: split the captured parameter
text on commas; for every segment whose first colon sits at a positive index,
record the trimmed key and the trimmed, quote-stripped value.  Later
assignments to the same key overwrite earlier ones, so the record is kept as
an assignment list read from the right. -/
def parseToolParameters (paramStr : List Char) : List (String × String) :=
  List.foldl (fun params line =>
    let pre := List.takeWhile (fun c => c ≠ ':') line
    if 0 < pre.length ∧ pre.length < line.length then
      params ++ [(String.mk (trimChars pre),
                  String.mk (stripQuotes (trimChars (List.drop (pre.length + 1) line))))]
    else params) [] (splitComma paramStr)

/-- Property access on the parameter record: the last assignment to the key,
undefined when the key was never assigned. -/
def getParam (params : List (String × String)) (key : String) : Option String :=
  (List.find? (fun e => e.1 = key) (List.reverse params)).map (fun e => e.2)

/-- JS truthiness filter on a string-or-undefined value: undefined and the
empty string are falsy. -/
def truthy : Option String → Option String
  | some s => if s = "" then none else some s
  | none => none

/-- The digits value of the leading decimal-digit run, or failure when the
run is empty. -/
def parseDigits (l : List Char) : Option Nat :=
  let ds := List.takeWhile Char.isDigit l
  if ds = [] then none
  else some (List.foldl (fun acc c => acc * 10 + (c.toNat - 48)) 0 ds)

/-- JS parseInt on decimal input: skip leading whitespace, an optional sign,
then a digit run; the result is NaN — modelled as none — when no digit
follows. -/
def jsParseInt (s : String) : Option Int :=
  let l := List.dropWhile Char.isWhitespace s.toList
  match l with
  | [] => none
  | c :: rest =>
    if c = '-' then (parseDigits rest).map (fun n => -(n : Int))
    else if c = '+' then (parseDigits rest).map (fun n => (n : Int))
    else (parseDigits l).map (fun n => (n : Int))

/-- The parameters of a new_task tool call, as assembled by parseOutput.  A
maxTurns of none models NaN from parseInt on a non-numeric value. -/
structure NewTaskParameters where
  mode : String
  instruction : String
  tools : Option (List String)
  maxTurns : Option Int
deriving DecidableEq, Repr

/-- The parameters of an attempt_completion tool call. -/
structure AttemptCompletionParameters where
  result : String
  summary : Option String
deriving DecidableEq, Repr

/-- A detected orchestration tool call. -/
inductive ToolCall
  | new_task (params : NewTaskParameters)
  | attempt_completion (params : AttemptCompletionParameters)
deriving DecidableEq, Repr

/-- The TASK_DEFAULTS.MAX_TURNS constant. -/
def MAX_TURNS_DEFAULT : Int := 10

/-- Build a new_task ToolCall from one inline match capture, or skip it when
the mode or the instruction parameter is missing or empty (the truthiness
guard of parseOutput). -/
def mkNewTaskCall (cap : List Char) : Option ToolCall :=
  let params := parseToolParameters cap
  match truthy (getParam params "mode"), truthy (getParam params "instruction") with
  | some mode, some instruction =>
    some (.new_task
      { mode := mode
        instruction := instruction
        tools := (truthy (getParam params "tools")).map
          (fun v => List.map (fun t => String.mk (trimChars t)) (splitComma v.toList))
        maxTurns :=
          match truthy (getParam params "maxTurns") with
          | some v => jsParseInt v
          | none => some MAX_TURNS_DEFAULT })
  | _, _ => none

/-- Build an attempt_completion ToolCall from one inline match capture, or
skip it when the result parameter is missing or empty.  The summary is stored
without a truthiness check, exactly as the source does. -/
def mkCompletionCall (cap : List Char) : Option ToolCall :=
  let params := parseToolParameters cap
  match truthy (getParam params "result") with
  | some result =>
    some (.attempt_completion { result := result, summary := getParam params "summary" })
  | none => none

/-- Build a new_task ToolCall from one XML match (pushed unconditionally, the
regex already guarantees nonempty mode and instruction captures). -/
def mkXmlNewTaskCall (q : XmlNewTaskMatch) : ToolCall :=
  .new_task
    { mode := String.mk (trimChars q.mode)
      instruction := String.mk (trimChars q.instruction)
      tools := q.tools.map
        (fun v => List.map (fun t => String.mk (trimChars t)) (splitComma (trimChars v)))
      maxTurns :=
        match q.maxTurns with
        | some v => jsParseInt (String.mk (trimChars v))
        | none => some MAX_TURNS_DEFAULT }

/-- Build an attempt_completion ToolCall from one XML match. -/
def mkXmlCompletionCall (q : XmlCompletionMatch) : ToolCall :=
  .attempt_completion
    { result := String.mk (trimChars q.result)
      summary := q.summary.map (fun v => String.mk (trimChars v)) }

/-- The inline new_task keyword. -/
def kwNewTask : List Char := "new_task".toList

/-- The inline attempt_completion keyword. -/
def kwAttemptCompletion : List Char := "attempt_completion".toList

/-- OrchestrationHandler.parseOutput: run the four global patterns over the
whole output in the order of the source — inline new_task, inline
attempt_completion, XML new_task, XML completion — appending each loop's
matches to the result list. -/
def parseOutput (output : String) : List ToolCall :=
  let s := output.toList
  List.filterMap mkNewTaskCall (scanAll (matchInlineAt kwNewTask) s)
  ++ List.filterMap mkCompletionCall (scanAll (matchInlineAt kwAttemptCompletion) s)
  ++ List.map mkXmlNewTaskCall (scanAll matchXmlNewTaskAt s)
  ++ List.map mkXmlCompletionCall (scanAll matchXmlCompletionAt s)

/-- The limits the TaskOrchestrator constructor passes to its SafetyManager:
maxDepth and maxChildren and maxTotalTasks from TASK_DEFAULTS, maxDuration
equal to the orchestrator timeout whose default is TASK_DEFAULTS.TIMEOUT. -/
def orchestratorLimits : TaskLimits :=
  { maxDepth := 5, maxChildren := 10, maxTotalTasks := 50, maxDuration := 1800000 }

/-! TaskOrchestrator (src/lib/task-orchestrator.ts).  The orchestrator state
is its task map, the TaskStack (whose entries reference the very task objects
owned by the map, so the stack is modelled as the list of their ids in push
order), the task counter, and the ProgressTracker store together with a
logical clock supplying lastUpdate stamps.  Worker-process side effects
(spawn, stdin writes, kill) leave this state untouched; whether a spawn
succeeds is passed in as a boolean so both branches of startTask are
covered.  Exceptions become Except-style results; operations that mutate
before throwing return the mutated state alongside the error, exactly as the
source leaves its maps when push throws midway. -/

/-- TASK_DEFAULTS.STACK_MAX_DEPTH, the TaskStack capacity. -/
def STACK_MAX_DEPTH : Nat := 10

/-- The orchestrator state. -/
structure OState where
  tasks : TaskMap
  stack : List Nat
  counter : Nat
  progress : ProgressMap
  clock : Nat
deriving DecidableEq, Repr

/-- The initial state of a fresh TaskOrchestrator. -/
def initState : OState :=
  { tasks := [], stack := [], counter := 0, progress := [], clock := 0 }

/-- A progressTracker.updateProgress call from the orchestrator: update the
store at the current clock and advance the clock. -/
def OState.updateProg (s : OState) (id : Nat) (u : ProgressUpdate) : OState :=
  { s with progress := updateProgress s.progress s.clock id u, clock := s.clock + 1 }

/-- Mutation of the task object stored under the given key (JS object
mutation reaches the map entry because the map stores the reference). -/
def OState.setTask (s : OState) (id : Nat) (t : Task) : OState :=
  { s with tasks := mapSet s.tasks id t }

/-- TaskStack.updateTask: when the task is on the stack, apply the partial
update to the shared task object; when it is absent the call returns false
and changes nothing. -/
def stackUpdateTask (s : OState) (id : Nat) (g : Task → Task) : OState :=
  if id ∈ s.stack then
    match lookupTask s.tasks id with
    | some t => s.setTask id (g t)
    | none => s
  else s

/-- TaskStack.removeTask: splice out the entry at whatever position it
occupies (the first occurrence in push order). -/
def removeFirst : List Nat → Nat → List Nat
  | [], _ => []
  | x :: xs, id => if x = id then xs else x :: removeFirst xs id

/-- The orchestration error taxonomy relevant to the modelled operations. -/
inductive OrchError
  | taskMissing (id : Nat)
  | safety (e : SafetyError)
  | stackFull
  | spawnFailed
deriving DecidableEq, Repr

/-- TaskOrchestrator.pauseTask: mark the task paused (isPaused, pausedMode,
status), mirror the change through the stack, and record the paused status in
the progress store. -/
def pauseTask (s : OState) (taskId : Nat) : Except OrchError OState :=
  match lookupTask s.tasks taskId with
  | none => .error (.taskMissing taskId)
  | some t =>
    let s1 := s.setTask taskId
      { t with isPaused := true, pausedMode := some t.mode, status := .paused }
    let s2 := stackUpdateTask s1 taskId
      (fun u => { u with isPaused := true, status := .paused })
    .ok (s2.updateProg taskId { status := some "paused" })

/-- TaskOrchestrator.resumeParentTask: clear isPaused, set the parent
running, forward the completion message to the worker (external, no state
effect — a write failure is logged, not thrown), mirror through the stack
and the progress store. -/
def resumeParentTask (s : OState) (parentId : Nat) (completionMessage : String) :
    Except OrchError OState :=
  match lookupTask s.tasks parentId with
  | none => .error (.taskMissing parentId)
  | some p =>
    let _ := completionMessage
    let s1 := s.setTask parentId { p with isPaused := false, status := .running }
    let s2 := stackUpdateTask s1 parentId
      (fun u => { u with isPaused := false, status := .running })
    .ok (s2.updateProg parentId { status := some "running" })

/-- TaskOrchestrator.completeTask: fail when the task is missing; set status
completed and store the result; stop the worker (external); remove the task
from the stack; set its progress to 100; then, when a parent id is set,
resume the parent with the result text. -/
def completeTask (s : OState) (taskId : Nat) (result : String) :
    Except OrchError OState :=
  match lookupTask s.tasks taskId with
  | none => .error (.taskMissing taskId)
  | some t =>
    let t1 := { t with status := TaskStatus.completed, result := some result }
    let s1 := s.setTask taskId t1
    let s2 := { s1 with stack := removeFirst s1.stack taskId }
    let s3 := s2.updateProg taskId { status := some "completed", progress := some 100 }
    match t1.parentId with
    | some pid => resumeParentTask s3 pid result
    | none => .ok s3

/-- The state effects of TaskOrchestrator.startTask: on a successful spawn
the task turns running (map, stack and progress store with
PROGRESS_DEFAULTS.INITIAL_PROGRESS); on a spawn failure the catch block turns
it failed in map and stack and rethrows without touching the progress
store. -/
def startTaskFx (s : OState) (taskId : Nat) (spawnOk : Bool) : OState :=
  match lookupTask s.tasks taskId with
  | none => s
  | some t =>
    if spawnOk then
      let s1 := s.setTask taskId { t with status := TaskStatus.running }
      let s2 := stackUpdateTask s1 taskId (fun u => { u with status := TaskStatus.running })
      s2.updateProg taskId { status := some "running", progress := some 10 }
    else
      let s1 := s.setTask taskId { t with status := TaskStatus.failed }
      stackUpdateTask s1 taskId (fun u => { u with status := TaskStatus.failed })

/-- TaskOrchestrator.createRootTask: validate with no parent; allocate a
fresh task at depth 0 whose rootId points to itself; register it in the map;
push it (a full stack throws here, after the map registration); record
initial progress; start the worker.  Returns the mutated state with the
outcome. -/
def createRootTask (s : OState) (mode instruction : String)
    (tools : Option (List String)) (maxTurns : Option Int)
    (sessionDuration : Nat) (spawnOk : Bool) : OState × Except OrchError Nat :=
  match validateTaskCreation orchestratorLimits sessionDuration none mode s.tasks with
  | .error e => (s, .error (.safety e))
  | .ok _ =>
    let id := s.counter + 1
    let t : Task :=
      { id := id, mode := mode, instruction := instruction,
        status := TaskStatus.pending, depth := 0, parentId := none,
        rootId := some id, children := [], result := none, isPaused := false,
        pausedMode := none, tools := tools, maxTurns := maxTurns }
    let s1 := OState.setTask { s with counter := id } id t
    if STACK_MAX_DEPTH ≤ s1.stack.length then (s1, .error .stackFull)
    else
      let s2 := { s1 with stack := s1.stack ++ [id] }
      let s3 := s2.updateProg id
        { agentName := some (mode ++ "-root"), status := some "pending",
          progress := some 0, currentTask := some instruction }
      (startTaskFx s3 id spawnOk, if spawnOk then .ok id else .error .spawnFailed)

/-- TaskOrchestrator.createSubtask: resolve the parent and the root task
(TaskNotFound when either is missing); validate with the parent; allocate the
child at depth parent.depth + 1 with parentId and rootId set; register and
push it; append its id to the parent's children; pause the parent; record
initial progress; start the child worker. -/
def createSubtask (s : OState) (parentId : Nat) (mode instruction : String)
    (tools : Option (List String)) (maxTurns : Option Int)
    (sessionDuration : Nat) (spawnOk : Bool) : OState × Except OrchError Nat :=
  match lookupTask s.tasks parentId with
  | none => (s, .error (.taskMissing parentId))
  | some parentTask =>
    match lookupTask s.tasks (parentTask.rootId.getD parentTask.id) with
    | none => (s, .error (.taskMissing (parentTask.rootId.getD parentTask.id)))
    | some rootTask =>
      match validateTaskCreation orchestratorLimits sessionDuration
          (some parentTask) mode s.tasks with
      | .error e => (s, .error (.safety e))
      | .ok _ =>
        let id := s.counter + 1
        let t : Task :=
          { id := id, mode := mode, instruction := instruction,
            status := TaskStatus.pending, depth := parentTask.depth + 1,
            parentId := some parentTask.id, rootId := some rootTask.id,
            children := [], result := none, isPaused := false,
            pausedMode := none, tools := tools, maxTurns := maxTurns }
        let s1 := OState.setTask { s with counter := id } id t
        if STACK_MAX_DEPTH ≤ s1.stack.length then (s1, .error .stackFull)
        else
          let s2 := { s1 with stack := s1.stack ++ [id] }
          let s3 := s2.setTask parentId
            { parentTask with children := parentTask.children ++ [id] }
          match pauseTask s3 parentId with
          | .error e => (s3, .error e)
          | .ok s4 =>
            let s5 := s4.updateProg id
              { agentName := some (mode ++ "-subtask"), status := some "pending",
                progress := some 0, currentTask := some instruction }
            (startTaskFx s5 id spawnOk, if spawnOk then .ok id else .error .spawnFailed)

/-- TaskOrchestrator.stopTask: fail when the task is missing; kill the worker
(external); set status failed unconditionally; remove the task from the
stack; record failed status in the progress store (the progress value 0 it
passes is falsy and so preserves the stored value). -/
def stopTask (s : OState) (taskId : Nat) : OState × Except OrchError Unit :=
  match lookupTask s.tasks taskId with
  | none => (s, .error (.taskMissing taskId))
  | some t =>
    let s1 := s.setTask taskId { t with status := TaskStatus.failed }
    let s2 := { s1 with stack := removeFirst s1.stack taskId }
    (s2.updateProg taskId { status := some "failed", progress := some 0 }, .ok ())

/-- TaskOrchestrator.stopAllTasks: stop every task in the map (errors from
individual stops are caught and ignored), then clear the stack. -/
def stopAllTasks (s : OState) : OState :=
  let ids := List.map (fun e => e.1) s.tasks
  let s1 := List.foldl (fun st id => (stopTask st id).1) s ids
  { s1 with stack := [] }

/-- One orchestrator task-creation operation, successful or not, with any
elapsed session time and any spawn outcome. -/
inductive Step : OState → OState → Prop
  | root (s : OState) (mode instruction : String) (tools : Option (List String))
      (maxTurns : Option Int) (sessionDuration : Nat) (spawnOk : Bool) :
      Step s (createRootTask s mode instruction tools maxTurns sessionDuration spawnOk).1
  | sub (s : OState) (parentId : Nat) (mode instruction : String)
      (tools : Option (List String)) (maxTurns : Option Int)
      (sessionDuration : Nat) (spawnOk : Bool) :
      Step s (createSubtask s parentId mode instruction tools maxTurns sessionDuration spawnOk).1

/-- The states reachable from a fresh orchestrator by sequences of
createRootTask and createSubtask calls. -/
def Reachable (s : OState) : Prop := Relation.ReflTransGen Step initState s

/-- The state after creating one root task in a fresh orchestrator, used as
concrete input in witnesses. -/
def exRootState : OState :=
  (createRootTask initState "orchestrator" "analyze" none none 0 true).1

/-- The state after the root task delegates one subtask, used as concrete
input in witnesses. -/
def exSubState : OState :=
  (createSubtask exRootState 1 "coder" "fix" none none 0 true).1

/-- The subtask record found in that state under id 2. -/
def exChildTask : Task :=
  { id := 2, mode := "coder", instruction := "fix", status := TaskStatus.running,
    depth := 1, parentId := some 1, rootId := some 1, children := [],
    result := none, isPaused := false, pausedMode := none, tools := none,
    maxTurns := none }

/-- The depth law of the spec: a task without a parent sits at depth 0, and
a task whose parentId refers to a task in the map sits one level below it. -/
def TaskDepthConsistent (m : TaskMap) : Prop :=
  ∀ p ∈ m,
    (p.2.parentId = none → p.2.depth = 0) ∧
    (∀ q, p.2.parentId = some q →
      ∃ pt, lookupTask m q = some pt ∧ p.2.depth = pt.depth + 1)

/-- The bookkeeping invariant of the orchestrator's task map: every key is
at most the counter (so the next allocated id is fresh), every task is
stored under its own id, keys are distinct, and depths are consistent. -/
def TasksInv (m : TaskMap) (counter : Nat) : Prop :=
  (∀ p ∈ m, p.1 ≤ counter) ∧
  (∀ p ∈ m, p.2.id = p.1) ∧
  (List.map Prod.fst m).Nodup ∧
  TaskDepthConsistent m

/-! OrchestrationHandler.processToolCalls.  The two handlers emit an event to
the controller and return an acknowledgement string; any error thrown while
handling one call is caught in the loop and replaced by the human-readable
error line, after which the loop continues with the next call.  The handlers
are passed in as Except-valued functions so that both their outcomes are
covered. -/

/-- The acknowledgement string of OrchestrationHandler.handleNewTask. -/
def handleNewTaskAck (p : NewTaskParameters) : String :=
  "Task delegation request sent. Creating " ++ p.mode ++ " subtask: \"" ++
    p.instruction ++ "\""

/-- The acknowledgement string of
OrchestrationHandler.handleAttemptCompletion. -/
def handleAttemptCompletionAck (p : AttemptCompletionParameters) : String :=
  "Task completed successfully. Result: " ++ p.result

/-- The response processToolCalls produces for a single call: the handler's
acknowledgement, or the catch block's error line when the handler throws. -/
def respondOne (hNT : NewTaskParameters → Except String String)
    (hAC : AttemptCompletionParameters → Except String String) :
    ToolCall → String
  | .new_task p =>
    match hNT p with
    | .ok r => r
    | .error e => "Error executing new_task: " ++ e
  | .attempt_completion p =>
    match hAC p with
    | .ok r => r
    | .error e => "Error executing attempt_completion: " ++ e

/-- OrchestrationHandler.processToolCalls: the sequential loop over the
calls, pushing one response per call, with the per-call try/catch of the
source. -/
def processToolCalls (hNT : NewTaskParameters → Except String String)
    (hAC : AttemptCompletionParameters → Except String String) :
    List ToolCall → List String
  | [] => []
  | tc :: rest =>
    (match tc with
     | .new_task p =>
       match hNT p with
       | .ok r => r
       | .error e => "Error executing new_task: " ++ e
     | .attempt_completion p =>
       match hAC p with
       | .ok r => r
       | .error e => "Error executing attempt_completion: " ++ e)
    :: processToolCalls hNT hAC rest

/-- A minimal coder task used as concrete input in witnesses. -/
def taskStub (i : Nat) : Task :=
  { id := i, mode := "coder", instruction := "work", status := TaskStatus.pending,
    depth := 0, parentId := none, rootId := some i, children := [],
    result := none, isPaused := false, pausedMode := none, tools := none,
    maxTurns := none }

/-- A minimal parent task with the given children ids, used as concrete
input in witnesses. -/
def parentStub (children : List Nat) : Task :=
  { id := 0, mode := "orchestrator", instruction := "lead",
    status := TaskStatus.running, depth := 0, parentId := none,
    rootId := some 0, children := children, result := none, isPaused := false,
    pausedMode := none, tools := none, maxTurns := none }

/-- A running child task of the witness parent, used as concrete input in
witnesses. -/
def childStub : Task :=
  { id := 2, mode := "coder", instruction := "build", status := TaskStatus.running,
    depth := 1, parentId := some 1, rootId := some 1, children := [],
    result := none, isPaused := false, pausedMode := none, tools := none,
    maxTurns := none }

/-- A two-task orchestrator state — a paused parent under id 1 with a
running child under id 2 — used as concrete input in witnesses. -/
def c1State : OState :=
  { tasks := [(1, parentStub [2]), (2, childStub)], stack := [1, 2],
    counter := 2, progress := [], clock := 0 }

/-- An already completed task, used as concrete input in the C9 witness. -/
def doneTask : Task :=
  { taskStub 3 with status := TaskStatus.completed, result := some "ok" }

/-- A state holding only that completed task, used as concrete input in
witnesses. -/
def c9State : OState :=
  { tasks := [(3, doneTask)], stack := [3], counter := 3, progress := [],
    clock := 0 }

/-- A one-record progress map used as concrete input in witnesses. -/
def progressSingleEx : ProgressMap :=
  [(7, { agentId := 7, agentName := "g", status := "running", progress := 30,
         currentTask := none, lastUpdate := 0 })]

/-- An existing progress record used as concrete input in witnesses. -/
def progressC10ex : ProgressEntry :=
  { agentId := 5, agentName := "n", status := "running", progress := 40,
    currentTask := none, lastUpdate := 3 }

/-- A progress map holding that record. -/
def progressC10m : ProgressMap := [(5, progressC10ex)]

/-- An update whose fields are all falsy. -/
def progressC10u : ProgressUpdate :=
  { agentName := some "", status := some "", progress := some 0, currentTask := none }

/-- The record expected after the falsy update: unchanged except the
lastUpdate stamp. -/
def progressC10e : ProgressEntry := { progressC10ex with lastUpdate := 9 }

/-! General lemmas about the JS Map model. -/

theorem alookup_nil {α : Type} (k : Nat) : alookup ([] : JsMap α) k = none := rfl

theorem alookup_cons {α : Type} (a : Nat × α) (as : JsMap α) (k : Nat) :
    alookup (a :: as) k = if a.1 = k then some a.2 else alookup as k := by
  by_cases h : a.1 = k <;> simp [alookup, List.find?, h]

theorem aset_cons_ne {α : Type} (a : Nat × α) (as : JsMap α) (k : Nat) (v : α)
    (ha : a.1 ≠ k) : aset (a :: as) k v = a :: aset as k v := by
  by_cases h2 : List.any as (fun e => e.1 = k) = true
  · simp [aset, List.any_cons, ha, h2]
  · simp [aset, List.any_cons, ha, h2]

theorem aset_cons_eq {α : Type} (a : Nat × α) (as : JsMap α) (k : Nat) (v : α)
    (ha : a.1 = k) :
    aset (a :: as) k v = (k, v) :: List.map (fun e => if e.1 = k then (k, v) else e) as := by
  have hany : List.any (a :: as) (fun e => e.1 = k) = true := by
    simp [List.any_cons, ha]
  simp [aset, hany, ha]

theorem alookup_mapReplace_ne {α : Type} (as : JsMap α) (k k2 : Nat) (v : α)
    (h : k2 ≠ k) :
    alookup (List.map (fun e => if e.1 = k then (k, v) else e) as) k2 = alookup as k2 := by
  induction as with
  | nil => rfl
  | cons a as ih =>
    by_cases ha : a.1 = k
    · have hk : (k : Nat) ≠ k2 := fun hc => h hc.symm
      have ha2 : a.1 ≠ k2 := by rw [ha]; exact hk
      simp only [List.map_cons, if_pos ha, alookup_cons, if_neg hk, if_neg ha2]
      exact ih
    · simp only [List.map_cons, if_neg ha, alookup_cons]
      by_cases h2 : a.1 = k2
      · simp [h2]
      · simp only [if_neg h2]
        exact ih

theorem alookup_aset {α : Type} (m : JsMap α) (k k2 : Nat) (v : α) :
    alookup (aset m k v) k2 = if k2 = k then some v else alookup m k2 := by
  induction m with
  | nil =>
    by_cases h : k2 = k
    · simp [aset, alookup, List.find?, h]
    · have hk : (k : Nat) ≠ k2 := fun hc => h hc.symm
      simp [aset, alookup, List.find?, h, hk]
  | cons a as ih =>
    by_cases ha : a.1 = k
    · rw [aset_cons_eq a as k v ha]
      by_cases h2 : k2 = k
      · simp [alookup_cons, h2]
      · have hk : (k : Nat) ≠ k2 := fun hc => h2 hc.symm
        have ha2 : a.1 ≠ k2 := by rw [ha]; exact hk
        rw [alookup_cons, if_neg hk, alookup_mapReplace_ne as k k2 v h2,
          alookup_cons, if_neg ha2, if_neg h2]
    · rw [aset_cons_ne a as k v ha, alookup_cons, alookup_cons]
      by_cases h2 : a.1 = k2
      · have : ¬ k2 = k := by
          intro hc
          exact ha (hc ▸ h2)
        simp [h2, this]
      · simp only [if_neg h2]
        exact ih

theorem alookup_eq_none_iff {α : Type} (m : JsMap α) (k : Nat) :
    alookup m k = none ↔ ∀ p ∈ m, p.1 ≠ k := by
  induction m with
  | nil => simp [alookup_nil]
  | cons a as ih =>
    rw [alookup_cons]
    by_cases h : a.1 = k
    · simp [h]
    · simp [h, ih]

theorem aset_fresh {α : Type} (m : JsMap α) (k : Nat) (v : α)
    (h : ∀ p ∈ m, p.1 ≠ k) : aset m k v = m ++ [(k, v)] := by
  have hany : List.any m (fun e => e.1 = k) = false := by
    rw [List.any_eq_false]
    intro p hp
    simp [h p hp]
  simp [aset, hany]

theorem mem_aset {α : Type} (m : JsMap α) (k : Nat) (v : α) (p : Nat × α)
    (hp : p ∈ aset m k v) : p = (k, v) ∨ (p ∈ m ∧ p.1 ≠ k) := by
  by_cases hany : List.any m (fun e => e.1 = k) = true
  · simp only [aset, hany, if_true, List.mem_map] at hp
    obtain ⟨e, he, hme⟩ := hp
    by_cases hek : e.1 = k
    · left
      rw [← hme, if_pos hek]
    · right
      rw [← hme, if_neg hek]
      exact ⟨he, hek⟩
  · have hf : List.any m (fun e => e.1 = k) = false := Bool.eq_false_iff.mpr hany
    simp only [aset, hf, Bool.false_eq_true, if_false, List.mem_append,
      List.mem_singleton] at hp
    rcases hp with hp | hp
    · right
      refine ⟨hp, ?_⟩
      intro hc
      have := List.any_eq_false.mp hf p hp
      simp [hc] at this
    · left
      exact hp

theorem keys_aset_present {α : Type} (m : JsMap α) (k : Nat) (v : α)
    (h : List.any m (fun e => e.1 = k) = true) :
    List.map Prod.fst (aset m k v) = List.map Prod.fst m := by
  simp only [aset, h, if_true, List.map_map]
  apply List.map_congr_left
  intro e _
  by_cases he : e.1 = k <;> simp [he]

theorem alookup_mem {α : Type} (m : JsMap α) (k : Nat) (v : α)
    (h : alookup m k = some v) : (k, v) ∈ m := by
  unfold alookup at h
  cases hf : List.find? (fun e => e.1 = k) m with
  | none => rw [hf] at h; cases h
  | some e =>
    rw [hf] at h
    have he : e ∈ m := List.mem_of_find?_eq_some hf
    have hek : e.1 = k := by simpa using List.find?_some hf
    have hv : e.2 = v := Option.some.inj h
    have hkv : (k, v) = e := by
      obtain ⟨e1, e2⟩ := e
      simp only at hek hv
      rw [hek, hv]
    rw [hkv]
    exact he

theorem alookup_append_left {α : Type} (m l : JsMap α) (k : Nat) (v : α)
    (h : alookup m k = some v) : alookup (m ++ l) k = some v := by
  induction m with
  | nil => rw [alookup_nil] at h; cases h
  | cons a as ih =>
    rw [alookup_cons] at h
    rw [List.cons_append, alookup_cons]
    by_cases ha : a.1 = k
    · rw [if_pos ha] at h ⊢
      exact h
    · rw [if_neg ha] at h ⊢
      exact ih h

/-! Lemmas about the orchestrator state operations. -/

theorem lookupTask_mapSet (m : TaskMap) (k k2 : Nat) (t : Task) :
    lookupTask (mapSet m k t) k2 = if k2 = k then some t else lookupTask m k2 := by
  unfold lookupTask mapSet
  exact alookup_aset m k k2 t

theorem not_mem_removeFirst (l : List Nat) (id : Nat) (h : l.Nodup) :
    id ∉ removeFirst l id := by
  induction l with
  | nil => simp [removeFirst]
  | cons x xs ih =>
    unfold removeFirst
    by_cases hx : x = id
    · rw [if_pos hx]
      subst hx
      exact (List.nodup_cons.mp h).1
    · rw [if_neg hx]
      intro hc
      rcases List.mem_cons.mp hc with hc | hc
      · exact hx hc.symm
      · exact ih (List.nodup_cons.mp h).2 hc

/-! Lemmas about SafetyManager.validateTaskCreation. -/

theorem validate_total_error (limits : TaskLimits) (dur : Nat) (parent : Option Task)
    (mode : String) (m : TaskMap) (h : mapSize m + 1 > limits.maxTotalTasks) :
    validateTaskCreation limits dur parent mode m = .error .totalExceeded := by
  unfold validateTaskCreation
  rw [if_pos h]

theorem validate_ok_root (limits : TaskLimits) (dur : Nat) (mode : String) (m : TaskMap)
    (h1 : mapSize m + 1 ≤ limits.maxTotalTasks) (h2 : dur ≤ limits.maxDuration) :
    validateTaskCreation limits dur none mode m = .ok true := by
  unfold validateTaskCreation
  rw [if_neg (by omega), if_neg (by omega)]

theorem validate_ok_parent (limits : TaskLimits) (dur : Nat) (p : Task) (mode : String)
    (m : TaskMap)
    (h1 : mapSize m + 1 ≤ limits.maxTotalTasks) (h2 : dur ≤ limits.maxDuration)
    (h3 : p.depth < limits.maxDepth) (h4 : List.length p.children < limits.maxChildren)
    (h5 : siblingCount m p mode < 3) :
    validateTaskCreation limits dur (some p) mode m = .ok true := by
  unfold validateTaskCreation
  rw [if_neg (by omega), if_neg (by omega)]
  simp only
  rw [if_neg (by omega), if_neg (by omega), if_neg (by omega)]

/-- Claim C3: validateTaskCreation rejects whenever size(allTasks) + 1 exceeds
maxTotalTasks, for any parent argument; with the orchestrator limits
(maxTotalTasks = 50) a createRootTask or createSubtask issued while 50 tasks
are already in the map fails with the safety rejection and leaves the state
untouched — the (maxTotalTasks + 1)-th creation of a session, for any
hierarchy shape; a creation seeing a strictly smaller map (in particular the
maxTotalTasks-th, which sees maxTotalTasks - 1 tasks) succeeds when the
other limits are not violated. -/
theorem C3_total_task_limit :
    (∀ (limits : TaskLimits) (dur : Nat) (parent : Option Task) (mode : String)
        (m : TaskMap), mapSize m + 1 > limits.maxTotalTasks →
        validateTaskCreation limits dur parent mode m = .error .totalExceeded) ∧
    (∀ (limits : TaskLimits) (dur : Nat) (mode : String) (m : TaskMap),
        mapSize m + 1 ≤ limits.maxTotalTasks → dur ≤ limits.maxDuration →
        validateTaskCreation limits dur none mode m = .ok true) ∧
    (∀ (limits : TaskLimits) (dur : Nat) (p : Task) (mode : String) (m : TaskMap),
        mapSize m + 1 ≤ limits.maxTotalTasks → dur ≤ limits.maxDuration →
        p.depth < limits.maxDepth → List.length p.children < limits.maxChildren →
        siblingCount m p mode < 3 →
        validateTaskCreation limits dur (some p) mode m = .ok true) ∧
    (∀ (s : OState) (mode instruction : String) (tools : Option (List String))
        (maxTurns : Option Int) (dur : Nat) (spawnOk : Bool),
        mapSize s.tasks = 50 →
        createRootTask s mode instruction tools maxTurns dur spawnOk
          = (s, .error (.safety .totalExceeded))) ∧
    (∀ (s : OState) (pid : Nat) (mode instruction : String)
        (tools : Option (List String)) (maxTurns : Option Int) (dur : Nat)
        (spawnOk : Bool) (pt rt : Task),
        mapSize s.tasks = 50 →
        lookupTask s.tasks pid = some pt →
        lookupTask s.tasks (pt.rootId.getD pt.id) = some rt →
        createSubtask s pid mode instruction tools maxTurns dur spawnOk
          = (s, .error (.safety .totalExceeded))) := by
  refine ⟨validate_total_error, validate_ok_root, validate_ok_parent, ?_, ?_⟩
  · intro s mode instruction tools maxTurns dur spawnOk h
    have hv : validateTaskCreation orchestratorLimits dur none mode s.tasks
        = .error .totalExceeded :=
      validate_total_error _ _ _ _ _ (by simp [orchestratorLimits, h])
    unfold createRootTask
    rw [hv]
  · intro s pid mode instruction tools maxTurns dur spawnOk pt rt h hpt hrt
    have hv : validateTaskCreation orchestratorLimits dur (some pt) mode s.tasks
        = .error .totalExceeded :=
      validate_total_error _ _ _ _ _ (by simp [orchestratorLimits, h])
    unfold createSubtask
    simp only [hpt, hrt, hv]

/-- Witness for C3 at concrete inputs: a map of 50 tasks rejects one more
creation; a map of 49 tasks admits the 50th. -/
theorem C3_total_task_limit_witness :
    validateTaskCreation orchestratorLimits 0 none "coder"
      (List.map (fun i => (i, taskStub i)) (List.range 50)) = .error .totalExceeded ∧
    validateTaskCreation orchestratorLimits 0 none "coder"
      (List.map (fun i => (i, taskStub i)) (List.range 49)) = .ok true := by
  constructor
  · exact C3_total_task_limit.1 orchestratorLimits 0 none "coder" _ (by decide)
  · exact C3_total_task_limit.2.1 orchestratorLimits 0 "coder" _ (by decide) (by decide)

/-- Claim C4: with exactly 3 identical-mode siblings of the candidate mode
already under the parent and present in the map, validateTaskCreation throws
(some error is raised no matter which earlier limit also fires); with exactly
2 such siblings and no other limit violated, the call succeeds — the 3rd
identical-mode sibling is allowed, the 4th is rejected. -/
theorem C4_sibling_mode_limit :
    (∀ (limits : TaskLimits) (dur : Nat) (p : Task) (mode : String) (m : TaskMap),
        siblingCount m p mode = 3 →
        ∃ e, validateTaskCreation limits dur (some p) mode m = .error e) ∧
    (∀ (limits : TaskLimits) (dur : Nat) (p : Task) (mode : String) (m : TaskMap),
        siblingCount m p mode = 2 →
        mapSize m + 1 ≤ limits.maxTotalTasks → dur ≤ limits.maxDuration →
        p.depth < limits.maxDepth → List.length p.children < limits.maxChildren →
        validateTaskCreation limits dur (some p) mode m = .ok true) := by
  constructor
  · intro limits dur p mode m h3
    unfold validateTaskCreation
    by_cases h1 : mapSize m + 1 > limits.maxTotalTasks
    · rw [if_pos h1]
      exact ⟨_, rfl⟩
    · rw [if_neg h1]
      by_cases h2 : dur > limits.maxDuration
      · rw [if_pos h2]
        exact ⟨_, rfl⟩
      · rw [if_neg h2]
        simp only
        by_cases hd : p.depth ≥ limits.maxDepth
        · rw [if_pos hd]
          exact ⟨_, rfl⟩
        · rw [if_neg hd]
          by_cases hc : List.length p.children ≥ limits.maxChildren
          · rw [if_pos hc]
            exact ⟨_, rfl⟩
          · rw [if_neg hc, if_pos (by omega)]
            exact ⟨_, rfl⟩
  · intro limits dur p mode m h2 ha hb hc hd
    exact validate_ok_parent limits dur p mode m ha hb hc hd (by omega)

/-! Lemmas about the ProgressTracker. -/

theorem foldl_add_progress (l : List ProgressEntry) (a : ℚ) :
    List.foldl (fun sum e => sum + e.progress) a l
      = a + List.sum (List.map (fun e => e.progress) l) := by
  induction l generalizing a with
  | nil => simp
  | cons x xs ih => simp [ih, add_assoc]

theorem lookupProgress_progSet_self (m : ProgressMap) (id : Nat) (p : ProgressEntry) :
    lookupProgress (progSet m id p) id = some p := by
  unfold lookupProgress progSet
  rw [alookup_aset]
  simp

theorem lookupProgress_progSet_other (m : ProgressMap) (id id2 : Nat) (p : ProgressEntry)
    (h : id2 ≠ id) : lookupProgress (progSet m id p) id2 = lookupProgress m id2 := by
  unfold lookupProgress progSet
  rw [alookup_aset, if_neg h]

/-- Claim C8: getOverallProgress returns 0 on an empty tracker and the
arithmetic mean of all progress values otherwise; on records holding 100, 50
and 0 it returns 50. -/
theorem C8_overall_progress :
    (∀ m : ProgressMap, m = [] → getOverallProgress m = 0) ∧
    (∀ m : ProgressMap, m ≠ [] →
      getOverallProgress m
        = List.sum (List.map (fun e => e.2.progress) m) / (List.length m : ℚ)) ∧
    getOverallProgress
      [(1, { agentId := 1, agentName := "a", status := "completed", progress := 100,
             currentTask := none, lastUpdate := 0 }),
       (2, { agentId := 2, agentName := "b", status := "running", progress := 50,
             currentTask := none, lastUpdate := 0 }),
       (3, { agentId := 3, agentName := "c", status := "pending", progress := 0,
             currentTask := none, lastUpdate := 0 })] = 50 := by
  refine ⟨?_, ?_, by norm_num [getOverallProgress]⟩
  · intro m hm
    subst hm
    rfl
  · intro m hm
    unfold getOverallProgress
    have hlen : List.length (List.map (fun e : Nat × ProgressEntry => e.2) m) ≠ 0 := by
      simpa using fun hc => hm (List.eq_nil_of_length_eq_zero hc)
    rw [if_neg hlen, foldl_add_progress]
    simp only [List.map_map, Function.comp_def, List.length_map, zero_add]

/-- Witness for C8: the mean over an empty tracker is 0, and over one record
it is that record's progress over one. -/
theorem C8_overall_progress_witness :
    getOverallProgress [] = 0 ∧
    getOverallProgress progressSingleEx
      = List.sum (List.map (fun e => e.2.progress) progressSingleEx)
        / (List.length progressSingleEx : ℚ) := by
  constructor
  · exact C8_overall_progress.1 [] rfl
  · exact C8_overall_progress.2.1 progressSingleEx (by simp [progressSingleEx])

/-- Claim C10: updateProgress treats an explicitly supplied falsy field value
(progress 0, empty status, empty agent name) like an absent one — the
existing record's value wins, so a stored nonzero progress cannot be reset to
0 through updateProgress; without an existing record the defaults are
agentName unknown, status unknown, progress 0; lastUpdate is stamped with the
current time on every call. -/
theorem C10_update_progress_falsy :
    (∀ (m : ProgressMap) (now id : Nat) (u : ProgressUpdate) (ex e : ProgressEntry),
      lookupProgress m id = some ex →
      lookupProgress (updateProgress m now id u) id = some e →
      (u.progress = some 0 → e.progress = ex.progress) ∧
      (u.status = some "" → ex.status ≠ "" → e.status = ex.status) ∧
      (u.agentName = some "" → ex.agentName ≠ "" → e.agentName = ex.agentName) ∧
      e.lastUpdate = now) ∧
    (∀ (m : ProgressMap) (now id : Nat) (u : ProgressUpdate) (e : ProgressEntry),
      lookupProgress m id = none →
      lookupProgress (updateProgress m now id u) id = some e →
      ((u.agentName = none ∨ u.agentName = some "") → e.agentName = "unknown") ∧
      ((u.status = none ∨ u.status = some "") → e.status = "unknown") ∧
      ((u.progress = none ∨ u.progress = some 0) → e.progress = 0) ∧
      e.lastUpdate = now) := by
  constructor
  · intro m now id u ex e hex he
    unfold updateProgress at he
    rw [lookupProgress_progSet_self] at he
    rw [hex] at he
    obtain rfl : _ = e := Option.some.inj he
    refine ⟨?_, ?_, ?_, rfl⟩
    · intro hp
      simp [hp, orNum]
    · intro hs hne
      simp [hs, orStr, hne]
    · intro hn hne
      simp [hn, orStr, hne]
  · intro m now id u e hnone he
    unfold updateProgress at he
    rw [lookupProgress_progSet_self] at he
    rw [hnone] at he
    obtain rfl : _ = e := Option.some.inj he
    refine ⟨?_, ?_, ?_, rfl⟩
    · rintro (hn | hn) <;> simp [hn, orStr]
    · rintro (hn | hn) <;> simp [hn, orStr]
    · rintro (hn | hn) <;> simp [hn, orNum]

/-- Witness for C10: updating an existing record with empty name, empty
status and progress 0 leaves all three stored values in place and restamps
lastUpdate. -/
theorem C10_update_progress_falsy_witness :
    ∃ e : ProgressEntry,
      lookupProgress (updateProgress progressC10m 9 5 progressC10u) 5 = some e ∧
      e.progress = 40 ∧ e.status = "running" ∧ e.agentName = "n" ∧ e.lastUpdate = 9 := by
  have h := C10_update_progress_falsy.1 progressC10m 9 5 progressC10u
    progressC10ex progressC10e rfl rfl
  exact ⟨progressC10e, rfl, h.1 rfl, h.2.1 rfl (by decide), h.2.2.1 rfl (by decide),
    h.2.2.2⟩

/-- Claim C7: processToolCalls produces exactly one response per call in
input order — it equals the per-call response map, so one call's outcome
never influences another's — and a call whose handler throws is answered
with the human-readable error line for its tool type. -/
theorem C7_process_tool_calls :
    ∀ (hNT : NewTaskParameters → Except String String)
      (hAC : AttemptCompletionParameters → Except String String)
      (calls : List ToolCall),
      processToolCalls hNT hAC calls = List.map (respondOne hNT hAC) calls ∧
      List.length (processToolCalls hNT hAC calls) = List.length calls ∧
      (∀ p e, hNT p = .error e →
        respondOne hNT hAC (ToolCall.new_task p) = "Error executing new_task: " ++ e) ∧
      (∀ p e, hAC p = .error e →
        respondOne hNT hAC (ToolCall.attempt_completion p)
          = "Error executing attempt_completion: " ++ e) := by
  intro hNT hAC calls
  have hmap : ∀ l : List ToolCall,
      processToolCalls hNT hAC l = List.map (respondOne hNT hAC) l := by
    intro l
    induction l with
    | nil => rfl
    | cons tc rest ih =>
      cases tc with
      | new_task p => simp [processToolCalls, respondOne, ih]
      | attempt_completion p => simp [processToolCalls, respondOne, ih]
  refine ⟨hmap calls, by rw [hmap calls]; simp, ?_, ?_⟩
  · intro p e he
    simp [respondOne, he]
  · intro p e he
    simp [respondOne, he]

/-- Witness for C7: a throwing new_task handler yields the error line while
the following attempt_completion call is still answered normally. -/
theorem C7_process_tool_calls_witness :
    processToolCalls (fun _ => .error "boom")
      (fun p => .ok (handleAttemptCompletionAck p))
      [ToolCall.new_task
        { mode := "coder", instruction := "x", tools := none, maxTurns := some 10 },
       ToolCall.attempt_completion { result := "ok", summary := none }]
      = ["Error executing new_task: boom",
         "Task completed successfully. Result: ok"] := by
  rw [(C7_process_tool_calls (fun _ => .error "boom")
    (fun p => .ok (handleAttemptCompletionAck p)) _).1]
  rfl

/-! Lemmas about the directive scanners. -/

theorem scanFuel_eq_snd {α : Type} (f : List Char → Option (α × List Char)) :
    ∀ (fuel : Nat) (pos : Nat) (s : List Char),
      scanFuel f fuel s = List.map Prod.snd (scanPosFuel f fuel pos s) := by
  intro fuel
  induction fuel with
  | zero =>
    intro pos s
    cases s <;> rfl
  | succ n ih =>
    intro pos s
    cases s with
    | nil => rfl
    | cons c rest =>
      simp only [scanFuel, scanPosFuel]
      cases h : f (c :: rest) with
      | none =>
        exact ih (pos + 1) rest
      | some p =>
        by_cases hlt : p.2.length < rest.length + 1
        · simp only [if_pos hlt, List.map_cons]
          exact congrArg (fun l => p.1 :: l) (ih _ p.2)
        · simp only [if_neg hlt, List.map_cons]
          exact congrArg (fun l => p.1 :: l) (ih _ rest)

theorem scanPosFuel_le {α : Type} (f : List Char → Option (α × List Char)) :
    ∀ (fuel : Nat) (pos : Nat) (s : List Char) (x : Nat × α),
      x ∈ scanPosFuel f fuel pos s → pos ≤ x.1 := by
  intro fuel
  induction fuel with
  | zero =>
    intro pos s x hx
    cases s <;> simp [scanPosFuel] at hx
  | succ n ih =>
    intro pos s x hx
    cases s with
    | nil => simp [scanPosFuel] at hx
    | cons c rest =>
      simp only [scanPosFuel] at hx
      cases h : f (c :: rest) with
      | none =>
        rw [h] at hx
        have := ih (pos + 1) rest x hx
        omega
      | some p =>
        rw [h] at hx
        simp only [] at hx
        by_cases hlt : p.2.length < rest.length + 1
        · rw [if_pos hlt] at hx
          rcases List.mem_cons.mp hx with hx | hx
          · rw [hx]
          · have := ih _ p.2 x hx
            omega
        · rw [if_neg hlt] at hx
          rcases List.mem_cons.mp hx with hx | hx
          · rw [hx]
          · have := ih (pos + 1) rest x hx
            omega

theorem scanPosFuel_pairwise {α : Type} (f : List Char → Option (α × List Char)) :
    ∀ (fuel : Nat) (pos : Nat) (s : List Char),
      List.Pairwise (fun a b => a < b)
        (List.map Prod.fst (scanPosFuel f fuel pos s)) := by
  intro fuel
  induction fuel with
  | zero =>
    intro pos s
    cases s <;> simp [scanPosFuel]
  | succ n ih =>
    intro pos s
    cases s with
    | nil => simp [scanPosFuel]
    | cons c rest =>
      simp only [scanPosFuel]
      cases h : f (c :: rest) with
      | none => exact ih (pos + 1) rest
      | some p =>
        simp only []
        by_cases hlt : p.2.length < rest.length + 1
        · rw [if_pos hlt]
          simp only [List.map_cons]
          refine List.Pairwise.cons ?_ (ih _ p.2)
          intro b hb
          obtain ⟨x, hx, hxb⟩ := List.mem_map.mp hb
          have := scanPosFuel_le f n _ p.2 x hx
          omega
        · rw [if_neg hlt]
          simp only [List.map_cons]
          refine List.Pairwise.cons ?_ (ih (pos + 1) rest)
          intro b hb
          obtain ⟨x, hx, hxb⟩ := List.mem_map.mp hb
          have := scanPosFuel_le f n (pos + 1) rest x hx
          omega

/-- Claim C5, counterexample: on a text whose attempt_completion directive
precedes its new_task directive (match positions 0 and 32), parseOutput
nevertheless lists the new_task call first — the result order is not the
encounter order across directive types, because the source runs the four
pattern loops one after the other. -/
theorem C5_encounter_order_counterexample :
    parseOutput
        "attempt_completion \x7bresult: ok\x7d new_task \x7bmode: a, instruction: b\x7d"
      = [ToolCall.new_task
          { mode := "a", instruction := "b", tools := none, maxTurns := some 10 },
         ToolCall.attempt_completion { result := "ok", summary := none }] ∧
    scanAllPos (matchInlineAt kwAttemptCompletion)
        ("attempt_completion \x7bresult: ok\x7d new_task \x7bmode: a, instruction: b\x7d".toList)
      = [(0, "result: ok".toList)] ∧
    scanAllPos (matchInlineAt kwNewTask)
        ("attempt_completion \x7bresult: ok\x7d new_task \x7bmode: a, instruction: b\x7d".toList)
      = [(32, "mode: a, instruction: b".toList)] :=
  ⟨rfl, rfl, rfl⟩

/-- Claim C5, amended: parseOutput returns the four pattern scans
concatenated in the fixed source order — inline new_task matches, then
inline attempt_completion matches, then tag-form new_task matches, then
tag-form attempt_completion matches — and within each individual scan the
matches appear in encounter order (strictly increasing match positions); the
encounter order does not hold across the four scans. -/
theorem C5_encounter_order_within_each_scan (output : String) :
    parseOutput output
      = List.filterMap mkNewTaskCall
          (List.map Prod.snd (scanAllPos (matchInlineAt kwNewTask) output.toList))
        ++ List.filterMap mkCompletionCall
          (List.map Prod.snd (scanAllPos (matchInlineAt kwAttemptCompletion) output.toList))
        ++ List.map mkXmlNewTaskCall
          (List.map Prod.snd (scanAllPos matchXmlNewTaskAt output.toList))
        ++ List.map mkXmlCompletionCall
          (List.map Prod.snd (scanAllPos matchXmlCompletionAt output.toList)) ∧
    List.Pairwise (fun a b => a < b)
      (List.map Prod.fst (scanAllPos (matchInlineAt kwNewTask) output.toList)) ∧
    List.Pairwise (fun a b => a < b)
      (List.map Prod.fst (scanAllPos (matchInlineAt kwAttemptCompletion) output.toList)) ∧
    List.Pairwise (fun a b => a < b)
      (List.map Prod.fst (scanAllPos matchXmlNewTaskAt output.toList)) ∧
    List.Pairwise (fun a b => a < b)
      (List.map Prod.fst (scanAllPos matchXmlCompletionAt output.toList)) := by
  refine ⟨?_, scanPosFuel_pairwise _ _ _ _, scanPosFuel_pairwise _ _ _ _,
    scanPosFuel_pairwise _ _ _ _, scanPosFuel_pairwise _ _ _ _⟩
  simp only [parseOutput, scanAll, scanAllPos]
  rw [← scanFuel_eq_snd, ← scanFuel_eq_snd, ← scanFuel_eq_snd, ← scanFuel_eq_snd]

/-- Claim C6: the exact inline example yields one new_task call with the
quotes stripped from the instruction, no tools, and the default maxTurns of
TASK_DEFAULTS.MAX_TURNS = 10. -/
theorem C6_parse_inline_example :
    parseOutput "new_task \x7bmode: coder, instruction: \"write tests\"\x7d"
      = [ToolCall.new_task
          { mode := "coder", instruction := "write tests",
            tools := none, maxTurns := some MAX_TURNS_DEFAULT }] := rfl

/-- Claim C1: completing a task whose parentId refers to another task in the
map succeeds and leaves: the task completed with the result stored, the task
gone from the stack (its entry spliced out; with distinct stack entries it is
absent afterwards), its progress record at 100, and the parent resumed —
status running and isPaused false.  The parent id differs from the task id,
as it always does for orchestrator-created tasks (ids are fresh counter
values and a parent exists before its child). -/
theorem C1_complete_task_resumes_parent (s : OState) (tid pid : Nat) (t pt : Task)
    (res : String)
    (ht : lookupTask s.tasks tid = some t)
    (hp : t.parentId = some pid)
    (hpt : lookupTask s.tasks pid = some pt)
    (hne : pid ≠ tid) :
    ∃ s', completeTask s tid res = .ok s' ∧
      lookupTask s'.tasks tid
        = some { t with status := TaskStatus.completed, result := some res } ∧
      s'.stack = removeFirst s.stack tid ∧
      (s.stack.Nodup → tid ∉ s'.stack) ∧
      Option.map (fun e => e.progress) (lookupProgress s'.progress tid) = some 100 ∧
      lookupTask s'.tasks pid
        = some { pt with isPaused := false, status := TaskStatus.running } := by
  have hne2 : tid ≠ pid := fun hc => hne hc.symm
  unfold completeTask
  rw [ht]
  simp only []
  set t1 : Task := { t with status := TaskStatus.completed, result := some res } with ht1
  rw [show t1.parentId = some pid from hp]
  simp only []
  unfold resumeParentTask
  simp only [OState.updateProg, OState.setTask]
  rw [show lookupTask (mapSet s.tasks tid t1) pid = some pt by
    rw [lookupTask_mapSet, if_neg hne]; exact hpt]
  simp only [stackUpdateTask, OState.setTask]
  set p1 : Task := { pt with isPaused := false, status := TaskStatus.running } with hp2
  by_cases hmem : pid ∈ removeFirst s.stack tid
  · rw [if_pos hmem]
    rw [show lookupTask (mapSet (mapSet s.tasks tid t1) pid p1) pid = some p1 by
      rw [lookupTask_mapSet, if_pos rfl]]
    simp only []
    refine ⟨_, rfl, ?_, rfl, ?_, ?_, ?_⟩
    · rw [lookupTask_mapSet, if_neg hne2, lookupTask_mapSet, if_neg hne2,
        lookupTask_mapSet, if_pos rfl]
    · intro hnd
      exact not_mem_removeFirst s.stack tid hnd
    · simp only [updateProgress]
      rw [lookupProgress_progSet_other _ _ _ _ hne2, lookupProgress_progSet_self]
      norm_num [orNum]
    · rw [lookupTask_mapSet, if_pos rfl]
  · rw [if_neg hmem]
    refine ⟨_, rfl, ?_, rfl, ?_, ?_, ?_⟩
    · rw [lookupTask_mapSet, if_neg hne2, lookupTask_mapSet, if_pos rfl]
    · intro hnd
      exact not_mem_removeFirst s.stack tid hnd
    · simp only [updateProgress]
      rw [lookupProgress_progSet_other _ _ _ _ hne2, lookupProgress_progSet_self]
      norm_num [orNum]
    · rw [lookupTask_mapSet, if_pos rfl]

/-- Witness for C1 at the concrete two-task state: completing the child
resumes the parent. -/
theorem C1_complete_task_resumes_parent_witness :
    ∃ s', completeTask c1State 2 "done" = .ok s' ∧
      lookupTask s'.tasks 2
        = some { childStub with status := TaskStatus.completed, result := some "done" } ∧
      s'.stack = removeFirst c1State.stack 2 ∧
      (c1State.stack.Nodup → 2 ∉ s'.stack) ∧
      Option.map (fun e => e.progress) (lookupProgress s'.progress 2) = some 100 ∧
      lookupTask s'.tasks 1
        = some { parentStub [2] with isPaused := false, status := TaskStatus.running } :=
  C1_complete_task_resumes_parent c1State 2 1 childStub (parentStub [2]) "done"
    rfl rfl rfl (by decide)

/-- Claim C9: stopTask sets the status of an existing task to failed no
matter what it was before — a completed task included — and splices it out of
the stack; stopAllTasks does this to every task in the map and clears the
stack, so afterwards every task recorded in the session has status failed. -/
theorem C9_stop_tasks_force_failed :
    (∀ (s : OState) (id : Nat) (t : Task),
      lookupTask s.tasks id = some t →
      lookupTask (stopTask s id).1.tasks id
          = some { t with status := TaskStatus.failed } ∧
      (stopTask s id).1.stack = removeFirst s.stack id ∧
      (s.stack.Nodup → id ∉ (stopTask s id).1.stack)) ∧
    (∀ s : OState, (stopAllTasks s).stack = [] ∧
      ∀ k : Nat, lookupTask (stopAllTasks s).tasks k
        = (lookupTask s.tasks k).map (fun t => { t with status := TaskStatus.failed })) := by
  have hstop : ∀ (st : OState) (k k2 : Nat),
      lookupTask (stopTask st k).1.tasks k2
        = if k2 = k
          then (lookupTask st.tasks k2).map (fun t => { t with status := TaskStatus.failed })
          else lookupTask st.tasks k2 := by
    intro st k k2
    unfold stopTask
    cases h : lookupTask st.tasks k with
    | none =>
      simp only []
      by_cases hk : k2 = k
      · rw [if_pos hk, hk, h]
        rfl
      · rw [if_neg hk]
    | some t =>
      simp only [OState.updateProg, OState.setTask]
      by_cases hk : k2 = k
      · rw [if_pos hk, hk, h, lookupTask_mapSet, if_pos rfl]
        rfl
      · rw [if_neg hk, lookupTask_mapSet, if_neg hk]
  have hfold : ∀ (ids : List Nat) (st : OState) (k2 : Nat),
      lookupTask (List.foldl (fun st id => (stopTask st id).1) st ids).tasks k2
        = if k2 ∈ ids
          then (lookupTask st.tasks k2).map (fun t => { t with status := TaskStatus.failed })
          else lookupTask st.tasks k2 := by
    intro ids
    induction ids with
    | nil => intro st k2; simp
    | cons id ids ih =>
      intro st k2
      simp only [List.foldl_cons]
      rw [ih, hstop]
      by_cases h2 : k2 = id
      · have hmem : k2 ∈ id :: ids := by simp [h2]
        rw [if_pos h2, if_pos hmem]
        by_cases h1 : k2 ∈ ids
        · rw [if_pos h1]
          cases lookupTask st.tasks k2 <;> rfl
        · rw [if_neg h1]
      · by_cases h1 : k2 ∈ ids
        · have hmem : k2 ∈ id :: ids := by simp [h1]
          rw [if_neg h2, if_pos h1, if_pos hmem]
        · have hmem : k2 ∉ id :: ids := by simp [h1, h2]
          rw [if_neg h2, if_neg h1, if_neg hmem]
  refine ⟨?_, ?_⟩
  · intro s id t ht
    refine ⟨?_, ?_, ?_⟩
    · rw [hstop, if_pos rfl, ht]
      rfl
    · unfold stopTask
      rw [ht]
      rfl
    · intro hnd
      unfold stopTask
      rw [ht]
      simp only []
      exact not_mem_removeFirst s.stack id hnd
  · intro s
    refine ⟨rfl, ?_⟩
    intro k
    unfold stopAllTasks
    simp only []
    rw [hfold]
    by_cases h : k ∈ List.map Prod.fst s.tasks
    · rw [if_pos h]
    · rw [if_neg h]
      have hnone : lookupTask s.tasks k = none := by
        unfold lookupTask
        rw [alookup_eq_none_iff]
        intro p hp hc
        exact h (List.mem_map.mpr ⟨p, hp, hc⟩)
      rw [hnone]
      rfl

/-- Witness for C9: stopping a task that had already completed successfully
turns its status to failed; stopAllTasks on that state leaves the completed
task failed and the stack empty. -/
theorem C9_stop_tasks_force_failed_witness :
    lookupTask (stopTask c9State 3).1.tasks 3
        = some { doneTask with status := TaskStatus.failed } ∧
    (stopAllTasks c9State).stack = [] ∧
    lookupTask (stopAllTasks c9State).tasks 3
        = some { doneTask with status := TaskStatus.failed } := by
  refine ⟨(C9_stop_tasks_force_failed.1 c9State 3 doneTask rfl).1, ?_, ?_⟩
  · exact (C9_stop_tasks_force_failed.2 c9State).1
  · rw [(C9_stop_tasks_force_failed.2 c9State).2 3]
    rfl

/-! Preservation of the task-map invariant, towards the depth law of C2. -/

theorem tasksInv_aset_same (m : TaskMap) (c k : Nat) (t t' : Task)
    (hl : lookupTask m k = some t)
    (hid : t'.id = t.id) (hpp : t'.parentId = t.parentId) (hdd : t'.depth = t.depth)
    (h : TasksInv m c) : TasksInv (mapSet m k t') c := by
  obtain ⟨hb, hi, hn, hd⟩ := h
  have hmem : (k, t) ∈ m := alookup_mem m k t hl
  have hany : List.any m (fun e => e.1 = k) = true :=
    List.any_eq_true.mpr ⟨(k, t), hmem, by simp⟩
  refine ⟨?_, ?_, ?_, ?_⟩
  · intro p hp
    rcases mem_aset m k t' p hp with rfl | ⟨hpm, _⟩
    · exact hb (k, t) hmem
    · exact hb p hpm
  · intro p hp
    rcases mem_aset m k t' p hp with rfl | ⟨hpm, _⟩
    · show t'.id = k
      rw [hid]
      exact hi (k, t) hmem
    · exact hi p hpm
  · have hkeys : List.map Prod.fst (mapSet m k t') = List.map Prod.fst m :=
      keys_aset_present m k t' hany
    rw [hkeys]
    exact hn
  · intro p hp
    rcases mem_aset m k t' p hp with rfl | ⟨hpm, hpk⟩
    · refine ⟨?_, ?_⟩
      · intro hnone
        rw [hdd]
        exact (hd (k, t) hmem).1 (hpp ▸ hnone)
      · intro q hq
        have hq' : t.parentId = some q := hpp ▸ hq
        obtain ⟨ptq, hptq, hdep⟩ := (hd (k, t) hmem).2 q hq'
        by_cases hqk : q = k
        · subst hqk
          rw [hl] at hptq
          have hte : t = ptq := Option.some.inj hptq
          rw [← hte] at hdep
          exact absurd (show t.depth = t.depth + 1 from hdep) (by omega)
        · refine ⟨ptq, ?_, by rw [hdd]; exact hdep⟩
          rw [lookupTask_mapSet, if_neg hqk]
          exact hptq
    · refine ⟨(hd p hpm).1, ?_⟩
      intro q hq
      obtain ⟨ptq, hptq, hdep⟩ := (hd p hpm).2 q hq
      by_cases hqk : q = k
      · subst hqk
        rw [hl] at hptq
        have hte : t = ptq := Option.some.inj hptq
        refine ⟨t', ?_, ?_⟩
        · rw [lookupTask_mapSet, if_pos rfl]
        · rw [hdd, hte]
          exact hdep
      · refine ⟨ptq, ?_, hdep⟩
        rw [lookupTask_mapSet, if_neg hqk]
        exact hptq

theorem tasksInv_aset_new (m : TaskMap) (c : Nat) (t : Task) (h : TasksInv m c)
    (hid : t.id = c + 1)
    (hok : (t.parentId = none ∧ t.depth = 0) ∨
      (∃ q pt, t.parentId = some q ∧ lookupTask m q = some pt ∧
        t.depth = pt.depth + 1)) :
    TasksInv (mapSet m (c + 1) t) (c + 1) := by
  obtain ⟨hb, hi, hn, hd⟩ := h
  have hfresh : ∀ p ∈ m, p.1 ≠ c + 1 := by
    intro p hp hc
    have := hb p hp
    omega
  have heq : mapSet m (c + 1) t = m ++ [(c + 1, t)] := aset_fresh m (c + 1) t hfresh
  rw [heq]
  refine ⟨?_, ?_, ?_, ?_⟩
  · intro p hp
    rcases List.mem_append.mp hp with hp | hp
    · have := hb p hp
      omega
    · rw [List.mem_singleton] at hp
      subst hp
      exact Nat.le_refl _
  · intro p hp
    rcases List.mem_append.mp hp with hp | hp
    · exact hi p hp
    · rw [List.mem_singleton] at hp
      subst hp
      exact hid
  · rw [List.map_append]
    refine List.nodup_append.mpr ⟨hn, by simp, ?_⟩
    intro a ha ha2
    simp only [List.map_cons, List.map_nil, List.mem_singleton] at ha2
    subst ha2
    obtain ⟨p, hp, hp1⟩ := List.mem_map.mp ha
    exact hfresh p hp hp1
  · intro p hp
    rcases List.mem_append.mp hp with hp | hp
    · refine ⟨(hd p hp).1, ?_⟩
      intro q hq
      obtain ⟨ptq, hptq, hdep⟩ := (hd p hp).2 q hq
      exact ⟨ptq, alookup_append_left m _ q ptq hptq, hdep⟩
    · rw [List.mem_singleton] at hp
      subst hp
      refine ⟨?_, ?_⟩
      · intro hnone
        rcases hok with ⟨_, hdep⟩ | ⟨q, pt, hsome, _, _⟩
        · exact hdep
        · rw [hnone] at hsome
          cases hsome
      · intro q hq
        rcases hok with ⟨hnone, _⟩ | ⟨q2, pt, hsome, hlq, hdep⟩
        · rw [hnone] at hq
          cases hq
        · rw [hsome] at hq
          obtain rfl := Option.some.inj hq
          exact ⟨pt, alookup_append_left m _ q2 pt hlq, hdep⟩

theorem tasksInv_stackUpdateTask (s : OState) (k : Nat) (g : Task → Task)
    (hg : ∀ u : Task, (g u).id = u.id ∧ (g u).parentId = u.parentId ∧ (g u).depth = u.depth)
    (h : TasksInv s.tasks s.counter) :
    TasksInv (stackUpdateTask s k g).tasks (stackUpdateTask s k g).counter := by
  unfold stackUpdateTask
  by_cases hm : k ∈ s.stack
  · rw [if_pos hm]
    cases hl : lookupTask s.tasks k with
    | none => exact h
    | some t =>
      exact tasksInv_aset_same s.tasks s.counter k t (g t) hl (hg t).1 (hg t).2.1
        (hg t).2.2 h
  · rw [if_neg hm]
    exact h

theorem tasksInv_pauseTask (s : OState) (k : Nat) (s' : OState)
    (h : TasksInv s.tasks s.counter) (hp : pauseTask s k = .ok s') :
    TasksInv s'.tasks s'.counter := by
  unfold pauseTask at hp
  cases hl : lookupTask s.tasks k with
  | none =>
    rw [hl] at hp
    cases hp
  | some t =>
    rw [hl] at hp
    simp only [] at hp
    obtain rfl := Except.ok.inj hp
    exact tasksInv_stackUpdateTask _ k _ (fun u => ⟨rfl, rfl, rfl⟩)
      (tasksInv_aset_same s.tasks s.counter k t _ hl rfl rfl rfl h)

theorem tasksInv_startTaskFx (s : OState) (k : Nat) (b : Bool)
    (h : TasksInv s.tasks s.counter) :
    TasksInv (startTaskFx s k b).tasks (startTaskFx s k b).counter := by
  unfold startTaskFx
  cases hl : lookupTask s.tasks k with
  | none => exact h
  | some t =>
    cases b with
    | true =>
      simp only [if_true]
      exact tasksInv_stackUpdateTask _ k _ (fun u => ⟨rfl, rfl, rfl⟩)
        (tasksInv_aset_same s.tasks s.counter k t _ hl rfl rfl rfl h)
    | false =>
      simp only [if_false]
      exact tasksInv_stackUpdateTask _ k _ (fun u => ⟨rfl, rfl, rfl⟩)
        (tasksInv_aset_same s.tasks s.counter k t _ hl rfl rfl rfl h)

theorem tasksInv_createRootTask (s : OState) (mode instruction : String)
    (tools : Option (List String)) (maxTurns : Option Int) (dur : Nat) (ok : Bool)
    (h : TasksInv s.tasks s.counter) :
    TasksInv ((createRootTask s mode instruction tools maxTurns dur ok).1).tasks
      ((createRootTask s mode instruction tools maxTurns dur ok).1).counter := by
  unfold createRootTask
  cases hv : validateTaskCreation orchestratorLimits dur none mode s.tasks with
  | error e => exact h
  | ok b =>
    simp only []
    have h1 := tasksInv_aset_new s.tasks s.counter
      { id := s.counter + 1, mode := mode, instruction := instruction,
        status := TaskStatus.pending, depth := 0, parentId := none,
        rootId := some (s.counter + 1), children := [], result := none,
        isPaused := false, pausedMode := none, tools := tools,
        maxTurns := maxTurns } h rfl (Or.inl ⟨rfl, rfl⟩)
    split
    · exact h1
    · exact tasksInv_startTaskFx _ _ _ h1

theorem tasksInv_createSubtask (s : OState) (parentId : Nat)
    (mode instruction : String) (tools : Option (List String))
    (maxTurns : Option Int) (dur : Nat) (ok : Bool)
    (h : TasksInv s.tasks s.counter) :
    TasksInv
      ((createSubtask s parentId mode instruction tools maxTurns dur ok).1).tasks
      ((createSubtask s parentId mode instruction tools maxTurns dur ok).1).counter := by
  unfold createSubtask
  cases hpar : lookupTask s.tasks parentId with
  | none => exact h
  | some parentTask =>
    simp only []
    cases hroot : lookupTask s.tasks (parentTask.rootId.getD parentTask.id) with
    | none => exact h
    | some rootTask =>
      simp only []
      cases hv : validateTaskCreation orchestratorLimits dur (some parentTask) mode
          s.tasks with
      | error e => exact h
      | ok b =>
        simp only []
        have hmemp : (parentId, parentTask) ∈ s.tasks :=
          alookup_mem s.tasks parentId parentTask hpar
        have hpid : parentTask.id = parentId := h.2.1 (parentId, parentTask) hmemp
        have hple : parentId ≤ s.counter := h.1 (parentId, parentTask) hmemp
        have h1 := tasksInv_aset_new s.tasks s.counter
          { id := s.counter + 1, mode := mode, instruction := instruction,
            status := TaskStatus.pending, depth := parentTask.depth + 1,
            parentId := some parentTask.id, rootId := some rootTask.id,
            children := [], result := none, isPaused := false, pausedMode := none,
            tools := tools, maxTurns := maxTurns } h rfl
          (Or.inr ⟨parentTask.id, parentTask, rfl, by rw [hpid]; exact hpar, rfl⟩)
        split
        · exact h1
        · have hpar2 : lookupTask (mapSet s.tasks (s.counter + 1)
              { id := s.counter + 1, mode := mode, instruction := instruction,
                status := TaskStatus.pending, depth := parentTask.depth + 1,
                parentId := some parentTask.id, rootId := some rootTask.id,
                children := [], result := none, isPaused := false,
                pausedMode := none, tools := tools, maxTurns := maxTurns }) parentId
              = some parentTask := by
            rw [lookupTask_mapSet, if_neg (by omega)]
            exact hpar
          have h2 := tasksInv_aset_same _ (s.counter + 1) parentId parentTask
            { parentTask with children := parentTask.children ++ [s.counter + 1] }
            hpar2 rfl rfl rfl h1
          split
          · exact h2
          · next s4 hps =>
            exact tasksInv_startTaskFx _ _ _ (tasksInv_pauseTask _ parentId s4 h2 hps)

theorem tasksInv_initState : TasksInv initState.tasks initState.counter := by
  refine ⟨?_, ?_, ?_, ?_⟩ <;> simp [initState, TaskDepthConsistent]

theorem reachable_tasksInv (s : OState) (h : Reachable s) :
    TasksInv s.tasks s.counter := by
  induction h with
  | refl => exact tasksInv_initState
  | tail hst hstep ih =>
    cases hstep with
    | root mode instruction tools maxTurns dur spawnOk =>
      exact tasksInv_createRootTask _ mode instruction tools maxTurns dur spawnOk ih
    | sub parentId mode instruction tools maxTurns dur spawnOk =>
      exact tasksInv_createSubtask _ parentId mode instruction tools maxTurns dur
        spawnOk ih

/-- Claim C2: in every state reachable from a fresh orchestrator by
createRootTask and createSubtask calls (successful or rejected, with any
elapsed session time and spawn outcomes), every task of the task map sits at
depth 0 when its parentId is unset, and at its parent's depth plus one when
its parentId is set — the parent then being present in the map. -/
theorem C2_depth_invariant (s : OState) (h : Reachable s) :
    ∀ p ∈ s.tasks,
      (p.2.parentId = none → p.2.depth = 0) ∧
      (∀ q, p.2.parentId = some q →
        ∃ pt, lookupTask s.tasks q = some pt ∧ p.2.depth = pt.depth + 1) :=
  (reachable_tasksInv s h).2.2.2

/-- Witness for C2 at the concrete state obtained by creating a root task
and then delegating one subtask from it: the subtask under id 2 sits one
level below the root it names as parent. -/
theorem C2_depth_invariant_witness :
    ∃ pt, lookupTask exSubState.tasks 1 = some pt ∧
      exChildTask.depth = pt.depth + 1 :=
  (C2_depth_invariant exSubState
    (Relation.ReflTransGen.tail
      (Relation.ReflTransGen.tail Relation.ReflTransGen.refl
        (Step.root initState "orchestrator" "analyze" none none 0 true))
      (Step.sub exRootState 1 "coder" "fix" none none 0 true))
    (2, exChildTask) (by decide)).2 1 rfl

/-- Witness for C4 at a concrete parent with three coder children (rejected)
and two coder children (accepted). -/
theorem C4_sibling_mode_limit_witness :
    (∃ e, validateTaskCreation orchestratorLimits 0 (some (parentStub [1, 2, 3])) "coder"
        [(1, taskStub 1), (2, taskStub 2), (3, taskStub 3)] = .error e) ∧
    validateTaskCreation orchestratorLimits 0 (some (parentStub [1, 2])) "coder"
        [(1, taskStub 1), (2, taskStub 2)] = .ok true := by
  constructor
  · exact C4_sibling_mode_limit.1 orchestratorLimits 0 _ "coder" _ (by decide)
  · exact C4_sibling_mode_limit.2 orchestratorLimits 0 _ "coder" _ (by decide)
      (by decide) (by decide) (by decide) (by decide)

end GooseFlow
